import Mathlib

/-!
Verification of the WebIFCViewer interactive viewing subsystem against its
natural-language specification.  Each definition below is a shallow embedding
of one function of the JavaScript source (file and symbol named in the doc
comment); machine floats are modelled by exact rationals, and the continuous
spherical-coordinate camera math by exact reals.
-/

namespace WebIFCViewer

/-! ## CoordinateConverter (src/js/modules/modeling/ModelRenderer.js, convertIFCToThreeJS)

The source walks the flat vertex array three entries at a time and writes
(x, z, -y) for each (x, y, z) triple. -/

/-- Embedding of ModelRenderer.convertIFCToThreeJS: for each consecutive
triple (x, y, z) of the flat vertex list, emit (x, z, -y). -/
def convertIFCToThreeJS : List ℚ → List ℚ
  | x :: y :: z :: rest => x :: z :: (-y) :: convertIFCToThreeJS rest
  | rest => rest

/-- Flatten a list of (x, y, z) triples into the flat vertex-array form the
source consumes. -/
def flattenTriples : List (ℚ × ℚ × ℚ) → List ℚ
  | [] => []
  | (x, y, z) :: rest => x :: y :: z :: flattenTriples rest

/-- The per-vertex axis permutation with sign flip performed by the converter. -/
def rotateAxes (p : ℚ × ℚ × ℚ) : ℚ × ℚ × ℚ := (p.1, p.2.2, -p.2.1)

/-! ## ModelRenderer materials (src/js/modules/modeling/ModelRenderer.js) -/

/-- A THREE.MeshBasicMaterial as far as the viewer uses it: a fill color
(24-bit hex value), the translucency flag, and the opacity.  The
constructor defaults are transparent = false and opacity = 1. -/
structure Material where
  color : ℕ
  transparent : Bool := false
  opacity : ℚ := 1
deriving DecidableEq

/-- One mesh descriptor received from the backend (the argument of
ModelRenderer.addIfcGeometry).  Optional fields are Option; a missing
ifcType models a descriptor whose ifcType property is undefined. -/
structure GeometryData where
  vertices : List ℚ
  faces : List ℕ
  colorHEX : Option ℕ
  transparency : Option ℚ
  ifcType : Option String
  globalId : Option String
deriving DecidableEq

/-- A Drawable built by addIfcGeometry: converted positions, index list,
resolved material, tag data, and the fixed mm-to-m scale factor. -/
structure Mesh where
  globalId : Option String
  ifcType : Option String
  positions : List ℚ
  indices : List ℕ
  material : Material
  scale : ℚ
deriving DecidableEq

/-- Embedding of the colorMap literal inside ModelRenderer.getColorByIfcType;
none models a key absent from the object literal. -/
def colorMap (t : String) : Option ℕ :=
  if t = "IfcWall" then some 0x4ecdc4
  else if t = "IfcWallStandardCase" then some 0x4ecdc4
  else if t = "IfcCurtainWall" then some 0x45b7d1
  else if t = "IfcWindow" then some 0x54a0ff
  else if t = "IfcWindowStyle" then some 0x54a0ff
  else if t = "IfcDoor" then some 0xfeca57
  else if t = "IfcDoorStyle" then some 0xfeca57
  else if t = "IfcRoof" then some 0xff6b6b
  else if t = "IfcSlab" then some 0xff6b6b
  else if t = "IfcRoofType" then some 0xff6b6b
  else if t = "IfcFloor" then some 0x96ceb4
  else if t = "IfcFloorType" then some 0x96ceb4
  else if t = "IfcColumn" then some 0xff9f43
  else if t = "IfcColumnType" then some 0xff9f43
  else if t = "IfcBeam" then some 0x5f27cd
  else if t = "IfcBeamType" then some 0x5f27cd
  else if t = "IfcStair" then some 0x00d2d3
  else if t = "IfcRailing" then some 0xff9ff3
  else if t = "IfcSpace" then some 0xddd6fe
  else if t = "IfcZone" then some 0xddd6fe
  else if t = "default" then some 0xee5a24
  else none

/-- Embedding of ModelRenderer.getColorByIfcType: table lookup with the
default color as fallback (colorMap[ifcType] || colorMap['default']). -/
def getColorByIfcType (t : String) : ℕ := (colorMap t).getD 0xee5a24

/-- Whether the pattern char list occurs at the start of the subject char
list. -/
def startsWithChars : List Char → List Char → Bool
  | [], _ => true
  | _ :: _, [] => false
  | c :: cs, d :: ds => c == d && startsWithChars cs ds

/-- Whether the pattern char list occurs anywhere inside the subject char
list. -/
def containsChars (pat : List Char) : List Char → Bool
  | [] => startsWithChars pat []
  | d :: ds => startsWithChars pat (d :: ds) || containsChars pat ds

/-- JavaScript ifcType.includes('Window'): true when the type name contains
the substring Window. -/
def includesWindow (t : String) : Bool := containsChars "Window".data t.data

/-- Embedding of ModelRenderer.addIfcGeometry.  The body runs inside a
try/catch that returns null on any exception; none models that catch.
With colorHEX present the hex value is used verbatim and, when a
transparency is present, opacity 1 - t with the transparent flag set only
when that opacity is below 1.  Without colorHEX the color comes from
getColorByIfcType, and reading ifcType.includes throws (caught -> none)
when ifcType is undefined; types containing Window get the fixed
override color 0x54a000 with transparent = true and opacity 0.7. -/
def addIfcGeometry (g : GeometryData) : Option Mesh :=
  let conv := convertIFCToThreeJS g.vertices
  match g.colorHEX with
  | some hex =>
    let base : Material := { color := hex }
    let mat : Material :=
      match g.transparency with
      | some t =>
        if 1 - t < 1 then { base with transparent := true, opacity := 1 - t }
        else base
      | none => base
    some { globalId := g.globalId, ifcType := g.ifcType, positions := conv,
           indices := g.faces, material := mat, scale := 1 / 1000 }
  | none =>
    match g.ifcType with
    | none => none
    | some ty =>
      let mat : Material :=
        if includesWindow ty then
          { color := 0x54a000, transparent := true, opacity := 7 / 10 }
        else
          { color := getColorByIfcType ty }
      some { globalId := g.globalId, ifcType := g.ifcType, positions := conv,
             indices := g.faces, material := mat, scale := 1 / 1000 }

/-- Embedding of ModelRenderer.addIfcGeometries: a forEach over the batch
that calls addIfcGeometry per item; items whose construction is caught
contribute no Drawable, the loop itself never aborts. -/
def addIfcGeometries (ds : List GeometryData) : List Mesh :=
  ds.foldl (fun acc d =>
    match addIfcGeometry d with
    | some m => acc ++ [m]
    | none => acc) []

/-! ## ModelRenderer wireframe overlays -/

/-- The wireframe bookkeeping of ModelRenderer: the registry of Drawables
(identified abstractly), the overlay list, and the showWireframe flag.
Each overlay records the Drawable it was built from. -/
structure WState where
  ifcObjects : List ℕ
  wireframeObjects : List ℕ
  showWireframe : Bool
deriving DecidableEq

/-- Embedding of ModelRenderer.createWireframe: derive one overlay from the
given mesh and append it to wireframeObjects. -/
def createWireframe (m : ℕ) (s : WState) : WState :=
  { s with wireframeObjects := s.wireframeObjects ++ [m] }

/-- Embedding of ModelRenderer.clearWireframes: dispose every overlay and
empty the overlay list. -/
def clearWireframes (s : WState) : WState :=
  { s with wireframeObjects := [] }

/-- Embedding of ModelRenderer.toggleWireframe: set the flag; when enabling,
run createWireframe over every mesh in ifcObjects (with no check whether
an overlay already exists); when disabling, clearWireframes. -/
def toggleWireframe (enable : Bool) (s : WState) : WState :=
  let s1 := { s with showWireframe := enable }
  if enable then s.ifcObjects.foldl (fun acc m => createWireframe m acc) s1
  else clearWireframes s1

/-! ## CameraManager / ThreeJSViewer frustum handling
(src/js/ThreeJSViewer.js updateCameraFrustum, onWindowResize;
src/unnamed/part_002 SimpleOrbitControls getZoom, setZoom, zoomOrthographic) -/

/-- The four orthographic frustum half-extent planes of the camera. -/
structure OrthoCamera where
  left : ℚ
  right : ℚ
  top : ℚ
  bottom : ℚ
deriving DecidableEq

/-- The viewer state the resize path touches: the camera, the cached
frustumSize, and the container pixel size. -/
structure ViewerC where
  camera : OrthoCamera
  frustumSize : ℚ
  width : ℚ
  height : ℚ
deriving DecidableEq

/-- Embedding of ThreeJSViewer.updateCameraFrustum: ignore degenerate
container sizes; otherwise set halfHeight = (frustumSize || 20) / 2 and
halfWidth = halfHeight * aspect, leaving frustumSize itself untouched. -/
def updateCameraFrustum (v : ViewerC) : ViewerC :=
  if v.width ≤ 0 ∨ v.height ≤ 0 then v
  else
    let aspect := v.width / v.height
    let safeFrustumSize := if v.frustumSize = 0 then 20 else v.frustumSize
    let halfHeight := safeFrustumSize * (1 / 2)
    let halfWidth := halfHeight * aspect
    { v with camera := { left := -halfWidth, right := halfWidth,
                         top := halfHeight, bottom := -halfHeight } }

/-- Embedding of SimpleOrbitControls.getZoom for an orthographic camera:
the zoom level is camera.top. -/
def getZoom (v : ViewerC) : ℚ := v.camera.top

/-- Embedding of SimpleOrbitControls.setZoom for an orthographic camera:
recover the aspect as right / top, then set top = zoom, bottom = -zoom,
left = -zoom * aspect, right = zoom * aspect. -/
def setZoom (zoom : ℚ) (v : ViewerC) : ViewerC :=
  let aspect := v.camera.right / v.camera.top
  { v with camera := { top := zoom, bottom := -zoom,
                       left := -(zoom * aspect), right := zoom * aspect } }

/-- Embedding of ThreeJSViewer.onWindowResize: snapshot the zoom, run
updateCameraFrustum, restore the zoom. -/
def onWindowResize (v : ViewerC) : ViewerC :=
  let currentZoom := getZoom v
  let v1 := updateCameraFrustum v
  setZoom currentZoom v1

/-- Embedding of SimpleOrbitControls.zoomOrthographic: scale all four
half-extents by 0.95 or 1.05 depending on the wheel sign, but only while
the new top stays inside (0.1, 1000). -/
def zoomOrthographic (delta : ℚ) (v : ViewerC) : ViewerC :=
  let zoomFactor := if delta < 0 then 1 - 1 / 20 else 1 + 1 / 20
  let newTop := v.camera.top * zoomFactor
  if 1 / 10 < newTop ∧ newTop < 1000 then
    { v with camera := { top := newTop, bottom := v.camera.bottom * zoomFactor,
                         left := v.camera.left * zoomFactor,
                         right := v.camera.right * zoomFactor } }
  else v

/-! ## EventManager highlight (src/unnamed/part_003: highlightObject,
highlightSingleObject, clearHighlight)

The scene tree is modelled as the flat list of its objects; highlight and
clear both visit every object (findAllObjectsByGlobalId / clearInChildren
recurse over the whole tree). -/

/-- A scene object as the highlight code sees it: its userData globalId,
its live material, and the userData fields the highlight cycle maintains. -/
structure Obj where
  globalId : Option String
  material : Material
  isHighlighted : Bool
  originalMaterial : Option Material
deriving DecidableEq

/-- The fixed highlight color 0x00ff88 used by highlightSingleObject. -/
def highlightColor : ℕ := 0x00ff88

/-- Embedding of the per-object body of EventManager.clearHighlight: a
highlighted object has its flag dropped and its saved original material
put back (the snapshot itself is kept in userData). -/
def clearHighlightObj (o : Obj) : Obj :=
  if o.isHighlighted then
    { o with isHighlighted := false,
             material := match o.originalMaterial with
                         | some m => m
                         | none => o.material }
  else o

/-- Embedding of EventManager.clearHighlight over the whole scene. -/
def clearHighlight (s : List Obj) : List Obj := s.map clearHighlightObj

/-- Embedding of EventManager.highlightSingleObject: mark highlighted, save
the original material only if no snapshot exists yet, then swap in a clone
of the live material with its color set to highlightColor.  The source
branches on whether wireframes are shown but both branches are identical;
the wireframeActive argument mirrors that dead conditional. -/
def highlightSingleObject (wireframeActive : Bool) (o : Obj) : Obj :=
  let o1 := { o with isHighlighted := true,
                     originalMaterial := match o.originalMaterial with
                                         | some m => some m
                                         | none => some o.material }
  if wireframeActive then
    { o1 with material := { o.material with color := highlightColor } }
  else
    { o1 with material := { o.material with color := highlightColor } }

/-- Embedding of EventManager.highlightObject: clear the previous highlight,
then run highlightSingleObject on every object whose globalId matches. -/
def highlightObject (wireframeActive : Bool) (gid : String) (s : List Obj) : List Obj :=
  (clearHighlight s).map fun o =>
    if o.globalId = some gid then highlightSingleObject wireframeActive o else o

/-! ## EventManager picking (src/unnamed/part_003: handleModelClick,
findGlobalId) -/

/-- One raycast intersection candidate: its distance, whether the hit
object's material is flagged transparent (a missing material counts as not
transparent, as in the source's truthiness checks), and the userData
globalId values along the object's parent chain, the hit object first. -/
structure Hit where
  distance : ℚ
  transparent : Bool
  chain : List (Option String)
deriving DecidableEq

/-- Embedding of EventManager.findGlobalId: walk up the ownership chain and
return the first globalId found, or none. -/
def findGlobalId : List (Option String) → Option String
  | [] => none
  | some g :: _ => some g
  | none :: rest => findGlobalId rest

/-- Whether a candidate resolves an elementId through its ownership chain. -/
def hasId (h : Hit) : Bool := (findGlobalId h.chain).isSome

/-- The total preorder realised by the sort comparator in
EventManager.handleModelClick: non-transparent candidates come before
transparent ones, candidates of equal transparency are ordered by
ascending distance. -/
def hitLE (a b : Hit) : Prop :=
  (a.transparent = b.transparent ∧ a.distance ≤ b.distance) ∨
    (a.transparent = false ∧ b.transparent = true)

instance : DecidableRel hitLE := fun a b => by
  unfold hitLE; infer_instance

instance : IsTotal Hit hitLE where
  total a b := by
    unfold hitLE
    rcases ha : a.transparent <;> rcases hb : b.transparent
    · rcases le_total a.distance b.distance with h | h
      · exact Or.inl (Or.inl ⟨rfl, h⟩)
      · exact Or.inr (Or.inl ⟨rfl, h⟩)
    · exact Or.inl (Or.inr ⟨rfl, rfl⟩)
    · exact Or.inr (Or.inr ⟨rfl, rfl⟩)
    · rcases le_total a.distance b.distance with h | h
      · exact Or.inl (Or.inl ⟨rfl, h⟩)
      · exact Or.inr (Or.inl ⟨rfl, h⟩)

instance : IsTrans Hit hitLE where
  trans a b c hab hbc := by
    unfold hitLE at *
    rcases hab with ⟨e1, d1⟩ | ⟨e1, e2⟩ <;> rcases hbc with ⟨f1, d2⟩ | ⟨f1, f2⟩
    · exact Or.inl ⟨e1.trans f1, d1.trans d2⟩
    · exact Or.inr ⟨e1.trans f1, f2⟩
    · exact Or.inr ⟨e1, f1 ▸ e2⟩
    · exact absurd (e2.symm.trans f1) (by simp)

/-- The sorted candidate list produced by intersects.sort with the
comparator of handleModelClick (JavaScript Array.prototype.sort is
stable). -/
def sortIntersects (l : List Hit) : List Hit := List.insertionSort hitLE l

/-- The two scan loops of handleModelClick over the sorted candidates:
first the first non-transparent candidate that resolves an id, then, if
none, the first candidate of any transparency that resolves one. -/
def twoLoopPick (l : List Hit) : Option String :=
  match l.find? (fun h => hasId h && !h.transparent) with
  | some h => findGlobalId h.chain
  | none =>
    match l.find? (fun h => hasId h) with
    | some h => findGlobalId h.chain
    | none => none

/-- Embedding of EventManager.handleModelClick from the point where the
candidate list exists: sort, then scan; with no intersection nothing is
selected. -/
def handleModelClick (hits : List Hit) : Option String :=
  if hits.isEmpty then none
  else twoLoopPick (sortIntersects hits)

/-- What the spec describes: the elementId resolved by the first candidate
(in the given order) whose ownership chain yields one. -/
def firstResolved (l : List Hit) : Option String :=
  match l.find? (fun h => hasId h) with
  | some h => findGlobalId h.chain
  | none => none

/-! ## dispose lifecycle (src/js/ThreeJSViewer.js dispose,
src/js/modules/core/SceneManager.js dispose/stopAnimation,
src/unnamed/part_003 EventManager.removeAllEventListeners,
src/unnamed/part_002 SimpleOrbitControls.setupEventListeners) -/

/-- One registered DOM listener, identified by its target and event type. -/
structure ListenerReg where
  target : String
  event : String
deriving DecidableEq

/-- The listeners SimpleOrbitControls.setupEventListeners attaches directly
to the renderer canvas and to the document. -/
def orbitControlsListeners : List ListenerReg :=
  [⟨"canvas", "mousedown"⟩, ⟨"canvas", "mousemove"⟩, ⟨"canvas", "mouseup"⟩,
   ⟨"canvas", "wheel"⟩, ⟨"canvas", "contextmenu"⟩, ⟨"document", "keyup"⟩]

/-- The listeners EventManager.setupEventListeners registers through its
tracked map. -/
def eventManagerListeners : List ListenerReg :=
  [⟨"window", "resize"⟩, ⟨"container", "mousedown"⟩, ⟨"container", "mousemove"⟩,
   ⟨"container", "mouseup"⟩, ⟨"container", "wheel"⟩, ⟨"container", "contextmenu"⟩,
   ⟨"document", "keydown"⟩, ⟨"document", "keyup"⟩]

/-- The lifecycle state dispose touches: the pending animation-frame id,
whether the renderer still holds its resources, and the two listener
registries (EventManager-tracked and SimpleOrbitControls-attached). -/
structure ViewerLifecycle where
  animationId : Option ℕ
  rendererAlive : Bool
  emListeners : List ListenerReg
  controlListeners : List ListenerReg
deriving DecidableEq

/-- The viewer right after ThreeJSViewer.init: animation running, renderer
alive, both listener sets attached. -/
def initViewer : ViewerLifecycle :=
  { animationId := some 1, rendererAlive := true,
    emListeners := eventManagerListeners,
    controlListeners := orbitControlsListeners }

/-- Embedding of ThreeJSViewer.dispose: SceneManager.dispose cancels the
pending animation frame and releases the renderer, then
EventManager.removeAllEventListeners detaches and forgets every listener in
its map.  Nothing detaches the SimpleOrbitControls listeners. -/
def dispose (s : ViewerLifecycle) : ViewerLifecycle :=
  { s with animationId := none, rendererAlive := false, emListeners := [] }

/-- Whether a synthetic event on the given target/event still reaches a
handler the viewer registered. -/
def listenerFires (s : ViewerLifecycle) (target event : String) : Bool :=
  (s.emListeners ++ s.controlListeners).any fun r =>
    r.target == target && r.event == event

/-! ## SimpleOrbitControls rotation (src/unnamed/part_002: onMouseMove guard
and rotate)

The spherical camera math is embedded over exact reals.  THREE.Spherical
conventions: radius = |v|, theta = atan2(x, z), phi = acos(clamp(y/r, -1, 1));
Vector3.setFromSpherical inverts with x = r sin(phi) sin(theta),
y = r cos(phi), z = r sin(phi) cos(theta). -/

noncomputable section

/-- The lower polar-angle clamp bound of SimpleOrbitControls (0.01 rad). -/
def minPhi : ℝ := 0.01

/-- The upper polar-angle clamp bound of SimpleOrbitControls (pi - 0.01). -/
def maxPhi : ℝ := Real.pi - 0.01

/-- The phi clamp inside SimpleOrbitControls.rotate: values below minPhi are
pinned to minPhi, values above maxPhi to maxPhi. -/
def clampPhi (x : ℝ) : ℝ :=
  if x < minPhi then minPhi else if maxPhi < x then maxPhi else x

/-- The phi component of SimpleOrbitControls.rotate: phi decreases by
dy * 0.01 and is then clamped. -/
def rotatePhi (phi dy : ℝ) : ℝ := clampPhi (phi - dy * 0.01)

/-- The phi effect of one pointer move while rotating
(SimpleOrbitControls.onMouseMove): with the pre-update phi at or below
minPhi only dy < 0 is accepted, at or above maxPhi only dy > 0, otherwise
the rotation is applied unconditionally. -/
def onMouseMoveRotate (phi dy : ℝ) : ℝ :=
  if phi ≤ minPhi then (if dy < 0 then rotatePhi phi dy else phi)
  else if maxPhi ≤ phi then (if 0 < dy then rotatePhi phi dy else phi)
  else rotatePhi phi dy

/-- The phi value after a whole sequence of pointer-move deltas. -/
def rotateSequence (phi : ℝ) (dys : List ℝ) : ℝ :=
  dys.foldl onMouseMoveRotate phi

/-- A 3-component vector over exact reals. -/
@[ext]
structure Vec3 where
  x : ℝ
  y : ℝ
  z : ℝ

/-- Componentwise vector addition (THREE.Vector3.add). -/
def Vec3.add (a b : Vec3) : Vec3 := ⟨a.x + b.x, a.y + b.y, a.z + b.z⟩

/-- Componentwise vector subtraction (THREE.Vector3.sub). -/
def Vec3.sub (a b : Vec3) : Vec3 := ⟨a.x - b.x, a.y - b.y, a.z - b.z⟩

/-- Euclidean length of a vector (THREE.Vector3.length). -/
def Vec3.norm (v : Vec3) : ℝ := Real.sqrt (v.x ^ 2 + v.y ^ 2 + v.z ^ 2)

/-- Spherical coordinates as THREE.Spherical stores them. -/
structure Spherical where
  radius : ℝ
  theta : ℝ
  phi : ℝ

/-- Math.atan2(y, x) as the argument of the complex number x + y i. -/
def atan2 (y x : ℝ) : ℝ := Complex.arg ⟨x, y⟩

/-- THREE.MathUtils.clamp(value, lo, hi) = max(lo, min(hi, value)). -/
def clampReal (value lo hi : ℝ) : ℝ := max lo (min hi value)

/-- Embedding of THREE.Spherical.setFromVector3: radius is the length; a
zero vector yields zero angles, otherwise theta = atan2(x, z) and
phi = acos(clamp(y / radius, -1, 1)). -/
def setFromVector3 (v : Vec3) : Spherical :=
  let r := v.norm
  if r = 0 then { radius := 0, theta := 0, phi := 0 }
  else { radius := r, theta := atan2 v.x v.z,
         phi := Real.arccos (clampReal (v.y / r) (-1) 1) }

/-- Embedding of THREE.Vector3.setFromSpherical. -/
def sphericalToVec (r phi theta : ℝ) : Vec3 :=
  ⟨Real.sin phi * r * Real.sin theta, Real.cos phi * r,
   Real.sin phi * r * Real.cos theta⟩

/-- The camera state SimpleOrbitControls.rotate mutates: its position and
the point it was last aimed at (camera.lookAt). -/
structure CameraR where
  position : Vec3
  lookTarget : Vec3

/-- Embedding of SimpleOrbitControls.rotate: read the spherical coordinates
of the camera relative to the model center, shift theta by -dx * 0.01 and
phi by -dy * 0.01 with the phi clamp, rebuild the Cartesian position from
the unchanged radius and the new angles, and aim the camera at the model
center. -/
def rotateCamera (dx dy : ℝ) (cam : CameraR) (modelCenter : Vec3) : CameraR :=
  let s := setFromVector3 (cam.position.sub modelCenter)
  let theta2 := s.theta - dx * 0.01
  let phi2 := clampPhi (s.phi - dy * 0.01)
  { position := (sphericalToVec s.radius phi2 theta2).add modelCenter,
    lookTarget := modelCenter }

end

/-! ## Helper lemmas -/

theorem flattenTriples_append (a b : List (ℚ × ℚ × ℚ)) :
    flattenTriples (a ++ b) = flattenTriples a ++ flattenTriples b := by
  induction a with
  | nil => simp [flattenTriples]
  | cons p rest ih =>
    obtain ⟨x, y, z⟩ := p
    simp [flattenTriples, ih]

theorem convertIFCToThreeJS_flatten (ts : List (ℚ × ℚ × ℚ)) :
    convertIFCToThreeJS (flattenTriples ts) = flattenTriples (ts.map rotateAxes) := by
  induction ts with
  | nil => simp [flattenTriples, convertIFCToThreeJS]
  | cons p rest ih =>
    obtain ⟨x, y, z⟩ := p
    simp [flattenTriples, convertIFCToThreeJS, rotateAxes, ih]

theorem toggleWireframe_foldl (l : List ℕ) (s : WState) :
    l.foldl (fun acc m => createWireframe m acc) s
      = { s with wireframeObjects := s.wireframeObjects ++ l } := by
  induction l generalizing s with
  | nil => simp
  | cons m rest ih =>
    rw [List.foldl_cons, ih]
    simp [createWireframe]

theorem toggleWireframe_true_spec (s : WState) :
    toggleWireframe true s
      = { ifcObjects := s.ifcObjects,
          wireframeObjects := s.wireframeObjects ++ s.ifcObjects,
          showWireframe := true } := by
  simp [toggleWireframe, toggleWireframe_foldl]

/-! ## C9 -/

/-- C9: the coordinate conversion is a pure axis permutation with sign flip:
every consecutive (x, y, z) triple of the input becomes (x, z, -y) at the
same position of the output, and in particular (1, 2, 3) maps to
(1, 3, -2). -/
theorem c9_convert (ts1 ts2 : List (ℚ × ℚ × ℚ)) (x y z : ℚ) :
    convertIFCToThreeJS (flattenTriples (ts1 ++ (x, y, z) :: ts2))
        = flattenTriples (ts1.map rotateAxes)
            ++ x :: z :: (-y) :: flattenTriples (ts2.map rotateAxes)
      ∧ convertIFCToThreeJS [1, 2, 3] = [1, 3, -2] := by
  constructor
  · rw [convertIFCToThreeJS_flatten]
    simp [flattenTriples_append, flattenTriples, rotateAxes]
  · rfl

/-! ## C5 -/

/-- C5 counterexample: toggleWireframe(true) is not idempotent.  On a scene
with one Drawable and no overlays, calling it twice leaves two overlays for
that Drawable while calling it once leaves one, so the claimed equality of
the two outcomes fails. -/
theorem c5_counterexample :
    toggleWireframe true (toggleWireframe true ⟨[0], [], false⟩)
      ≠ toggleWireframe true ⟨[0], [], false⟩ := by
  decide

/-- C5 (amended): toggleWireframe(false) disposes and detaches every overlay
and a second disable call is a no-op; toggleWireframe(true) is not
idempotent: each enable call appends one fresh overlay per Drawable in the
registry without checking for an existing one, so two enable calls leave
two overlays per Drawable. -/
theorem c5_toggle_wireframe (s : WState) :
    toggleWireframe false (toggleWireframe false s) = toggleWireframe false s
      ∧ (toggleWireframe false s).wireframeObjects = []
      ∧ (toggleWireframe true s).wireframeObjects = s.wireframeObjects ++ s.ifcObjects
      ∧ (toggleWireframe true (toggleWireframe true s)).wireframeObjects
          = s.wireframeObjects ++ s.ifcObjects ++ s.ifcObjects := by
  refine ⟨rfl, rfl, ?_, ?_⟩
  · rw [toggleWireframe_true_spec]
  · rw [toggleWireframe_true_spec, toggleWireframe_true_spec]

/-! ## C8 -/

/-- C8 counterexample: after dispose() a synthetic pointer event still fires
a listener the viewer registered — the mousedown handler
SimpleOrbitControls attached to the renderer canvas is never detached. -/
theorem c8_counterexample :
    listenerFires (dispose initViewer) "canvas" "mousedown" = true := by
  decide

/-- C8 (amended): dispose() is idempotent (the second call is a no-op that
neither throws nor double-frees), it cancels the pending animation frame so
no further frame ticks occur, and no listener registered through the
EventManager fires afterwards; however the listeners SimpleOrbitControls
attached directly to the canvas and the document are not detached and still
fire on subsequent synthetic pointer events. -/
theorem c8_dispose (s : ViewerLifecycle) :
    dispose (dispose s) = dispose s
      ∧ (dispose s).animationId = none
      ∧ (dispose s).rendererAlive = false
      ∧ (dispose s).emListeners = []
      ∧ (dispose s).controlListeners = s.controlListeners
      ∧ ∀ target event, listenerFires (dispose s) target event
          = s.controlListeners.any fun r => r.target == target && r.event == event := by
  refine ⟨rfl, rfl, rfl, rfl, rfl, fun target event => ?_⟩
  simp [listenerFires, dispose]

/-! ## C6 -/

theorem addIfcGeometries_foldl (ds : List GeometryData) (acc : List Mesh) :
    ds.foldl (fun acc d =>
        match addIfcGeometry d with
        | some m => acc ++ [m]
        | none => acc) acc
      = acc ++ ds.filterMap addIfcGeometry := by
  induction ds generalizing acc with
  | nil => simp
  | cons d rest ih =>
    rw [List.foldl_cons, ih]
    cases h : addIfcGeometry d <;> simp [List.filterMap_cons, h]

theorem addIfcGeometries_eq_filterMap (ds : List GeometryData) :
    addIfcGeometries ds = ds.filterMap addIfcGeometry := by
  simpa using addIfcGeometries_foldl ds []

/-- C6 counterexample: a descriptor with empty vertex and index arrays is
not rejected — ingestion still produces a Drawable for it, so the batch of
that single empty descriptor ends with one Drawable added rather than
zero. -/
theorem c6_counterexample :
    (addIfcGeometry { vertices := [], faces := [], colorHEX := none,
                      transparency := none, ifcType := some "IfcWall",
                      globalId := some "w1" }).isSome = true
      ∧ (addIfcGeometries [{ vertices := [], faces := [], colorHEX := none,
                             transparency := none, ifcType := some "IfcWall",
                             globalId := some "w1" }]).length = 1 := by
  exact ⟨rfl, rfl⟩

/-- C6 (amended): ingestion wraps each item of the batch in a per-item
try/catch, so an item whose construction throws (for instance one with
neither colorHex nor an ifcType, where reading ifcType.includes throws) is
skipped with no Drawable added and without aborting — the remaining items
are ingested exactly as if the bad item were absent; however non-empty
vertex/index arrays are not validated: every descriptor that carries an
ifcType yields a Drawable even with empty arrays, and the skip is silent
rather than logged. -/
theorem c6_ingest_batch (pre post : List GeometryData) (d : GeometryData)
    (hbad : addIfcGeometry d = none) :
    addIfcGeometries (pre ++ d :: post) = addIfcGeometries (pre ++ post)
      ∧ (∀ g : GeometryData, g.colorHEX = none → g.ifcType = none →
          addIfcGeometry g = none)
      ∧ (∀ g : GeometryData, ∀ ty, g.ifcType = some ty →
          (addIfcGeometry g).isSome = true) := by
  refine ⟨?_, ?_, ?_⟩
  · rw [addIfcGeometries_eq_filterMap, addIfcGeometries_eq_filterMap]
    simp [List.filterMap_cons, hbad]
  · intro g h1 h2
    unfold addIfcGeometry
    rw [h1, h2]
  · intro g ty hty
    unfold addIfcGeometry
    cases h : g.colorHEX <;> simp [hty]

/-- C6 witness: a concrete bad item (no colorHex, no ifcType) between good
items is skipped while the rest of the batch proceeds unchanged. -/
theorem c6_witness :
    addIfcGeometry { vertices := [], faces := [], colorHEX := none,
                     transparency := none, ifcType := none,
                     globalId := none } = none
      ∧ addIfcGeometries
            [{ vertices := [1, 2, 3], faces := [0, 1, 2], colorHEX := none,
               transparency := none, ifcType := some "IfcWall",
               globalId := some "g1" },
             { vertices := [], faces := [], colorHEX := none,
               transparency := none, ifcType := none, globalId := none }]
          = addIfcGeometries
              [{ vertices := [1, 2, 3], faces := [0, 1, 2], colorHEX := none,
                 transparency := none, ifcType := some "IfcWall",
                 globalId := some "g1" }] := by
  refine ⟨rfl, ?_⟩
  exact (c6_ingest_batch
    [{ vertices := [1, 2, 3], faces := [0, 1, 2], colorHEX := none,
       transparency := none, ifcType := some "IfcWall",
       globalId := some "g1" }] []
    { vertices := [], faces := [], colorHEX := none,
      transparency := none, ifcType := none, globalId := none } rfl).1

/-! ## C7 -/

/-- C7: material resolution during ingest.  With colorHex present the fill
color is the hex value verbatim; with a transparency in [0, 1] as well,
opacity = 1 - transparency and the material is flagged translucent exactly
when that opacity is below 1.  Without colorHex the color comes from the
fixed element-type table with unknown types falling back to the single
default color 0xee5a24, and element types whose name contains Window get
the fixed translucent override (color 0x54a000, opacity 0.7) regardless of
the table entry. -/
theorem c7_material_resolution (g : GeometryData) :
    (∀ hex, g.colorHEX = some hex →
        ∃ m, addIfcGeometry g = some m ∧ m.material.color = hex ∧
          (g.transparency = none →
            m.material.transparent = false ∧ m.material.opacity = 1) ∧
          (∀ t, g.transparency = some t → 0 ≤ t → t ≤ 1 →
            m.material.opacity = 1 - t
              ∧ (m.material.transparent = true ↔ 1 - t < 1)))
      ∧ (g.colorHEX = none → ∀ ty, g.ifcType = some ty →
          ∃ m, addIfcGeometry g = some m ∧
            (includesWindow ty = true →
              m.material.color = 0x54a000 ∧ m.material.transparent = true
                ∧ m.material.opacity = 7 / 10) ∧
            (includesWindow ty = false →
              m.material.color = getColorByIfcType ty
                ∧ m.material.transparent = false ∧ m.material.opacity = 1) ∧
            (colorMap ty = none → getColorByIfcType ty = 0xee5a24)) := by
  constructor
  · intro hex hhex
    unfold addIfcGeometry
    rw [hhex]
    cases ht : g.transparency with
    | none =>
      refine ⟨_, rfl, rfl, fun _ => ⟨rfl, rfl⟩, fun t h => by simp at h⟩
    | some t =>
      by_cases hlt : 1 - t < 1
      · refine ⟨{ globalId := g.globalId, ifcType := g.ifcType,
                  positions := convertIFCToThreeJS g.vertices,
                  indices := g.faces,
                  material := { color := hex, transparent := true,
                                opacity := 1 - t },
                  scale := 1 / 1000 },
          by simp [hlt], rfl, fun h => by simp at h, fun u hu h0 h1 => ?_⟩
        obtain rfl : t = u := by simpa using hu
        simp [hlt]
      · refine ⟨{ globalId := g.globalId, ifcType := g.ifcType,
                  positions := convertIFCToThreeJS g.vertices,
                  indices := g.faces,
                  material := { color := hex, transparent := false,
                                opacity := 1 },
                  scale := 1 / 1000 },
          by simp [hlt], rfl, fun h => by simp at h, fun u hu h0 h1 => ?_⟩
        obtain rfl : t = u := by simpa using hu
        have ht0 : t = 0 := le_antisymm (by linarith [not_lt.mp hlt]) h0
        subst ht0
        simp [hlt]
  · intro hnone ty hty
    unfold addIfcGeometry
    rw [hnone, hty]
    by_cases hw : includesWindow ty
    · refine ⟨{ globalId := g.globalId, ifcType := some ty,
                positions := convertIFCToThreeJS g.vertices,
                indices := g.faces,
                material := { color := 0x54a000, transparent := true,
                              opacity := 7 / 10 },
                scale := 1 / 1000 },
        by simp [hw], fun _ => ⟨rfl, rfl, rfl⟩, fun h => by simp [hw] at h,
        fun hmap => by simp [getColorByIfcType, hmap]⟩
    · refine ⟨{ globalId := g.globalId, ifcType := some ty,
                positions := convertIFCToThreeJS g.vertices,
                indices := g.faces,
                material := { color := getColorByIfcType ty,
                              transparent := false, opacity := 1 },
                scale := 1 / 1000 },
        by simp [hw], fun h => by simp [h] at hw,
        fun _ => ⟨rfl, rfl, rfl⟩, fun hmap => by simp [getColorByIfcType, hmap]⟩

/-- C7 witness: a concrete descriptor with colorHex 0xabcdef and
transparency 0.3 resolves to a material with that exact color, opacity 0.7
and the translucent flag set. -/
theorem c7_witness :
    ∃ m, addIfcGeometry { vertices := [1, 2, 3], faces := [0, 1, 2],
                          colorHEX := some 0xabcdef,
                          transparency := some (3 / 10),
                          ifcType := some "IfcWall",
                          globalId := some "g2" } = some m
      ∧ m.material.color = 0xabcdef ∧ m.material.opacity = 7 / 10
      ∧ m.material.transparent = true := by
  obtain ⟨m, hm, hc, _, ht⟩ :=
    (c7_material_resolution { vertices := [1, 2, 3], faces := [0, 1, 2],
                              colorHEX := some 0xabcdef,
                              transparency := some (3 / 10),
                              ifcType := some "IfcWall",
                              globalId := some "g2" }).1 0xabcdef rfl
  obtain ⟨hop, hfl⟩ := ht (3 / 10) rfl (by norm_num) (by norm_num)
  refine ⟨m, hm, hc, ?_, hfl.mpr (by norm_num)⟩
  rw [hop]; norm_num

/-! ## C2 -/

/-- C2 counterexample: starting from the fitted camera (frustumSize 20,
square viewport), one wheel zoom-in leaves top = 9.5 with frustumSize still
20; resizing the viewport to aspect 2 then yields half-width
9.5 * 2 = 19, not (frustumSize / 2) * aspect = 20, so the claimed half-width
formula fails on a resize after a zoom. -/
theorem c2_counterexample :
    (onWindowResize { camera := { left := -10, right := 10, top := 10, bottom := -10 },
                      frustumSize := 20, width := 2, height := 1 } |>.camera.right) = 20
      ∧ ((onWindowResize
            { zoomOrthographic (-1)
                { camera := { left := -10, right := 10, top := 10, bottom := -10 },
                  frustumSize := 20, width := 1, height := 1 } with
              width := 2 }).camera.right ≠
          ((zoomOrthographic (-1)
              { camera := { left := -10, right := 10, top := 10, bottom := -10 },
                frustumSize := 20, width := 1, height := 1 }).frustumSize / 2) * (2 / 1)) := by
  constructor
  · norm_num [onWindowResize, updateCameraFrustum, getZoom, setZoom]
  · norm_num [onWindowResize, updateCameraFrustum, getZoom, setZoom, zoomOrthographic]

/-- C2 (amended): a resize with positive finite width and height leaves the
cached frustumSize, the half-height (camera.top) and the apparent zoom
level (getZoom) unchanged, and sets the half-width to halfHeight * aspect
for the preserved half-height; only when the camera is still at the fitted
default half-height frustumSize / 2 does the half-width equal
(frustumSize / 2) * aspect. -/
theorem c2_resize_preserves_zoom (v : ViewerC)
    (hw : 0 < v.width) (hh : 0 < v.height)
    (hf : 0 < v.frustumSize) (_ht : 0 < v.camera.top) :
    (onWindowResize v).camera.top = v.camera.top
      ∧ (onWindowResize v).camera.bottom = -v.camera.top
      ∧ (onWindowResize v).camera.right = v.camera.top * (v.width / v.height)
      ∧ (onWindowResize v).camera.left = -(v.camera.top * (v.width / v.height))
      ∧ (onWindowResize v).frustumSize = v.frustumSize
      ∧ getZoom (onWindowResize v) = getZoom v
      ∧ (v.camera.top = v.frustumSize / 2 →
          (onWindowResize v).camera.right = (v.frustumSize / 2) * (v.width / v.height)) := by
  have hcond : ¬(v.width ≤ 0 ∨ v.height ≤ 0) := by
    push_neg
    exact ⟨hw, hh⟩
  have hfz : v.frustumSize ≠ 0 := ne_of_gt hf
  have hupd : updateCameraFrustum v
      = { v with camera := { left := -(v.frustumSize * (1 / 2) * (v.width / v.height)),
                             right := v.frustumSize * (1 / 2) * (v.width / v.height),
                             top := v.frustumSize * (1 / 2),
                             bottom := -(v.frustumSize * (1 / 2)) } } := by
    unfold updateCameraFrustum
    rw [if_neg hcond, if_neg hfz]
  have haspect : v.frustumSize * (1 / 2) * (v.width / v.height) / (v.frustumSize * (1 / 2))
      = v.width / v.height := by
    field_simp
    ring
  have hres : onWindowResize v
      = { v with camera := { left := -(v.camera.top * (v.width / v.height)),
                             right := v.camera.top * (v.width / v.height),
                             top := v.camera.top,
                             bottom := -v.camera.top } } := by
    unfold onWindowResize setZoom getZoom
    rw [hupd]
    simp only [haspect]
  rw [hres]
  refine ⟨rfl, rfl, rfl, rfl, rfl, rfl, fun hfit => ?_⟩
  rw [hfit]

/-- C2 witness: instantiating the amended theorem on a concrete fitted
viewer (top 10, frustumSize 20, viewport 2 by 1) gives unchanged
half-height 10 and new half-width 20. -/
theorem c2_witness :
    (0 : ℚ) < 2 ∧ (0 : ℚ) < 1 ∧ (0 : ℚ) < 20 ∧ (0 : ℚ) < 10
      ∧ (onWindowResize { camera := { left := -10, right := 10, top := 10, bottom := -10 },
                          frustumSize := 20, width := 2, height := 1 }).camera.top = 10
      ∧ (onWindowResize { camera := { left := -10, right := 10, top := 10, bottom := -10 },
                          frustumSize := 20, width := 2, height := 1 }).camera.right = 20 := by
  have h := c2_resize_preserves_zoom
    { camera := { left := -10, right := 10, top := 10, bottom := -10 },
      frustumSize := 20, width := 2, height := 1 }
    (by norm_num) (by norm_num) (by norm_num) (by norm_num)
  refine ⟨by norm_num, by norm_num, by norm_num, by norm_num, h.1, ?_⟩
  rw [h.2.2.1]
  norm_num

/-! ## C3 -/

theorem highlight_clear_pointwise (wireframeActive : Bool) (gid : String) (o : Obj)
    (h1 : o.isHighlighted = false)
    (h2 : o.originalMaterial = none ∨ o.originalMaterial = some o.material) :
    clearHighlightObj o = o
      ∧ (o.globalId = some gid →
          (highlightSingleObject wireframeActive o).material.color = highlightColor
            ∧ (clearHighlightObj (highlightSingleObject wireframeActive o)).material
                = o.material)
      ∧ (∀ m, o.originalMaterial = some m →
          (highlightSingleObject wireframeActive o).originalMaterial = some m) := by
  have hclear : clearHighlightObj o = o := by
    unfold clearHighlightObj
    rw [h1]
    simp
  refine ⟨hclear, fun _ => ⟨?_, ?_⟩, fun m hm => ?_⟩
  · cases wireframeActive <;> rfl
  · rcases h2 with h2 | h2 <;>
      cases wireframeActive <;>
      simp [highlightSingleObject, clearHighlightObj, h2]
  · cases wireframeActive <;> simp [highlightSingleObject, hm]

/-- C3: highlight/clear round trip.  From a scene with no active highlight
(and any snapshots agreeing with the live materials), one highlight(E)
paints every Drawable tagged E with the highlight color while leaving other
Drawables' colors alone, saves each target's original material at most once
(an existing snapshot is never overwritten), and the following
clearHighlight() restores every Drawable to a material equal by color to
its pre-highlight state. -/
theorem c3_highlight_clear_round_trip (wireframeActive : Bool) (gid : String)
    (s : List Obj)
    (h1 : ∀ o ∈ s, o.isHighlighted = false)
    (h2 : ∀ o ∈ s, o.originalMaterial = none ∨ o.originalMaterial = some o.material) :
    (highlightObject wireframeActive gid s).map (fun o => o.material.color)
        = s.map (fun o =>
            if o.globalId = some gid then highlightColor else o.material.color)
      ∧ (clearHighlight (highlightObject wireframeActive gid s)).map
            (fun o => o.material.color)
          = s.map (fun o => o.material.color)
      ∧ ∀ o ∈ s, ∀ m, o.globalId = some gid → o.originalMaterial = some m →
          ((clearHighlightObj o).globalId = some gid →
            (highlightSingleObject wireframeActive (clearHighlightObj o)).originalMaterial
              = some m) := by
  refine ⟨?_, ?_, ?_⟩
  · unfold highlightObject clearHighlight
    rw [List.map_map, List.map_map]
    refine List.map_congr_left fun o ho => ?_
    have hp := highlight_clear_pointwise wireframeActive gid o (h1 o ho) (h2 o ho)
    simp only [Function.comp_apply, hp.1]
    by_cases hg : o.globalId = some gid
    · rw [if_pos hg, if_pos hg, (hp.2.1 hg).1]
    · rw [if_neg hg, if_neg hg]
  · unfold highlightObject clearHighlight
    rw [List.map_map, List.map_map, List.map_map]
    refine List.map_congr_left fun o ho => ?_
    have hp := highlight_clear_pointwise wireframeActive gid o (h1 o ho) (h2 o ho)
    simp only [Function.comp_apply, hp.1]
    by_cases hg : o.globalId = some gid
    · rw [if_pos hg, (hp.2.1 hg).2]
    · rw [if_neg hg, hp.1]
  · intro o ho m _ hm _
    have hp := highlight_clear_pointwise wireframeActive gid o (h1 o ho) (h2 o ho)
    rw [hp.1]
    exact hp.2.2 m hm

/-- C3 witness: a concrete scene with two Drawables tagged E1 (a solid and a
translucent one) and one other Drawable; highlighting E1 paints exactly the
two tagged Drawables and clearing restores all original colors. -/
theorem c3_witness :
    (highlightObject false "E1"
          [{ globalId := some "E1", material := { color := 0x111111 },
             isHighlighted := false, originalMaterial := none },
           { globalId := some "E1",
             material := { color := 0x222222, transparent := true, opacity := 1 / 2 },
             isHighlighted := false, originalMaterial := none },
           { globalId := some "B", material := { color := 0x333333 },
             isHighlighted := false, originalMaterial := none }]).map
        (fun o => o.material.color) = [highlightColor, highlightColor, 0x333333]
      ∧ (clearHighlight (highlightObject false "E1"
            [{ globalId := some "E1", material := { color := 0x111111 },
               isHighlighted := false, originalMaterial := none },
             { globalId := some "E1",
               material := { color := 0x222222, transparent := true, opacity := 1 / 2 },
               isHighlighted := false, originalMaterial := none },
             { globalId := some "B", material := { color := 0x333333 },
               isHighlighted := false, originalMaterial := none }])).map
          (fun o => o.material.color) = [0x111111, 0x222222, 0x333333] := by
  have h := c3_highlight_clear_round_trip false "E1"
    [{ globalId := some "E1", material := { color := 0x111111 },
       isHighlighted := false, originalMaterial := none },
     { globalId := some "E1",
       material := { color := 0x222222, transparent := true, opacity := 1 / 2 },
       isHighlighted := false, originalMaterial := none },
     { globalId := some "B", material := { color := 0x333333 },
       isHighlighted := false, originalMaterial := none }]
    (by intro o ho; fin_cases ho <;> rfl)
    (by intro o ho; fin_cases ho <;> exact Or.inl rfl)
  refine ⟨?_, ?_⟩
  · rw [h.1]; rfl
  · rw [h.2.1]; rfl

/-! ## C4 -/

theorem hitLE_transparent_mono {a b : Hit} (h : hitLE a b)
    (ha : a.transparent = true) : b.transparent = true := by
  rcases h with ⟨e, _⟩ | ⟨e, _⟩
  · exact e ▸ ha
  · exact absurd (e ▸ ha) (by simp)

theorem twoLoopPick_eq_firstResolved (l : List Hit)
    (hs : List.Pairwise hitLE l) : twoLoopPick l = firstResolved l := by
  induction l with
  | nil => rfl
  | cons h t ih =>
    have hrel := (List.pairwise_cons.mp hs).1
    have ht := (List.pairwise_cons.mp hs).2
    by_cases hid : hasId h
    · by_cases htr : h.transparent
      · have hnone : (h :: t).find? (fun x => hasId x && !x.transparent) = none := by
          rw [List.find?_eq_none]
          intro x hx
          rcases List.mem_cons.mp hx with rfl | hx
          · simp [hid, htr]
          · have : x.transparent = true := hitLE_transparent_mono (hrel x hx) htr
            simp [this]
        unfold twoLoopPick firstResolved
        rw [hnone, List.find?_cons_of_pos _ (by simp [hid])]
      · unfold twoLoopPick firstResolved
        rw [List.find?_cons_of_pos _ (by simp [hid, htr]),
          List.find?_cons_of_pos _ (by simp [hid])]
    · unfold twoLoopPick firstResolved
      rw [List.find?_cons_of_neg _ (by simp [hid]),
        List.find?_cons_of_neg _ (by simp [hid])]
      exact ih ht

/-- C4: picking.  The candidate list is reordered so that non-transparent
candidates precede transparent ones and candidates of equal transparency
are in ascending distance (a permutation of the raycast hits sorted by the
comparator's preorder); the returned elementId is the one resolved, by
walking up the ownership chain, by the first candidate of that order that
resolves any; and an empty intersection list yields no selection rather
than an error. -/
theorem c4_pick_first_resolved (hits : List Hit) :
    (sortIntersects hits).Perm hits
      ∧ List.Sorted hitLE (sortIntersects hits)
      ∧ handleModelClick hits = firstResolved (sortIntersects hits)
      ∧ handleModelClick [] = none := by
  refine ⟨List.perm_insertionSort hitLE hits,
    List.sorted_insertionSort hitLE hits, ?_, rfl⟩
  unfold handleModelClick
  by_cases hempty : hits.isEmpty
  · have : hits = [] := List.isEmpty_iff.mp hempty
    subst this
    rfl
  · rw [if_neg hempty]
    exact twoLoopPick_eq_firstResolved (sortIntersects hits)
      (List.sorted_insertionSort hitLE hits)

/-! ## C1 -/

theorem minPhi_lt_maxPhi : minPhi < maxPhi := by
  have hpi := Real.pi_gt_three
  unfold minPhi maxPhi
  linarith

theorem clampPhi_mem (x : ℝ) : minPhi ≤ clampPhi x ∧ clampPhi x ≤ maxPhi := by
  unfold clampPhi
  split_ifs with h1 h2
  · exact ⟨le_refl _, le_of_lt minPhi_lt_maxPhi⟩
  · exact ⟨le_of_lt minPhi_lt_maxPhi, le_refl _⟩
  · exact ⟨not_lt.mp h1, not_lt.mp h2⟩

theorem clampPhi_of_le {x : ℝ} (h : x ≤ minPhi) : clampPhi x = minPhi := by
  unfold clampPhi
  split_ifs with h1 h2
  · rfl
  · exact absurd (lt_of_le_of_lt h minPhi_lt_maxPhi) (asymm h2)
  · exact le_antisymm h (not_lt.mp h1)

theorem onMouseMoveRotate_mem {phi : ℝ} (dy : ℝ)
    (h1 : minPhi ≤ phi) (h2 : phi ≤ maxPhi) :
    minPhi ≤ onMouseMoveRotate phi dy ∧ onMouseMoveRotate phi dy ≤ maxPhi := by
  unfold onMouseMoveRotate rotatePhi
  split_ifs <;> first
    | exact ⟨h1, h2⟩
    | exact clampPhi_mem _

theorem rotateSequence_mem (dys : List ℝ) {phi : ℝ}
    (h1 : minPhi ≤ phi) (h2 : phi ≤ maxPhi) :
    minPhi ≤ rotateSequence phi dys ∧ rotateSequence phi dys ≤ maxPhi := by
  induction dys generalizing phi with
  | nil => exact ⟨h1, h2⟩
  | cons d rest ih =>
    have hstep := onMouseMoveRotate_mem d h1 h2
    exact ih hstep.1 hstep.2

theorem onMouseMoveRotate_big {phi dy : ℝ}
    (h1 : minPhi ≤ phi) (h2 : phi ≤ maxPhi)
    (hbig : 100 * (maxPhi - minPhi) ≤ dy) : onMouseMoveRotate phi dy = minPhi := by
  have hspan : 0 < maxPhi - minPhi := sub_pos.mpr minPhi_lt_maxPhi
  have hdypos : 0 < dy := lt_of_lt_of_le (by linarith) hbig
  have hscaled := mul_le_mul_of_nonneg_right hbig (show (0:ℝ) ≤ 0.01 by norm_num)
  have hreach : phi - dy * 0.01 ≤ minPhi := by
    have hexp : 100 * (maxPhi - minPhi) * 0.01 = maxPhi - minPhi := by ring
    rw [hexp] at hscaled
    linarith
  unfold onMouseMoveRotate
  by_cases ha : phi ≤ minPhi
  · rw [if_pos ha, if_neg (not_lt.mpr (le_of_lt hdypos))]
    exact le_antisymm ha h1
  · rw [if_neg ha]
    by_cases hc : maxPhi ≤ phi
    · rw [if_pos hc, if_pos hdypos]
      unfold rotatePhi
      exact clampPhi_of_le hreach
    · rw [if_neg hc]
      unfold rotatePhi
      exact clampPhi_of_le hreach

theorem rotateSequence_min_pinned (dys : List ℝ)
    (hall : ∀ d ∈ dys, 100 * (maxPhi - minPhi) ≤ d) :
    rotateSequence minPhi dys = minPhi := by
  induction dys with
  | nil => rfl
  | cons d rest ih =>
    have hd := hall d (List.mem_cons_self d rest)
    have hstep : onMouseMoveRotate minPhi d = minPhi :=
      onMouseMoveRotate_big (le_refl _) (le_of_lt minPhi_lt_maxPhi) hd
    have hfold : rotateSequence minPhi (d :: rest)
        = rotateSequence (onMouseMoveRotate minPhi d) rest := rfl
    rw [hfold, hstep]
    exact ih fun x hx => hall x (List.mem_cons_of_mem d hx)

/-- C1 counterexample: repeated rotation with a large positive dy does not
drive phi to the upper clamp value.  Starting from phi = 2 (inside the
clamped range), two pointer moves with dy = 1000 leave phi at the lower
clamp minPhi, which differs from maxPhi, so the claimed convergence to the
upper bound fails. -/
theorem c1_counterexample :
    rotateSequence 2 [1000, 1000] = minPhi ∧ minPhi ≠ maxPhi := by
  have hpi := Real.pi_gt_three
  constructor
  · have e1 : onMouseMoveRotate 2 1000 = minPhi := by
      unfold onMouseMoveRotate
      rw [if_neg (show ¬((2:ℝ) ≤ minPhi) by unfold minPhi; norm_num),
        if_neg (show ¬(maxPhi ≤ (2:ℝ)) by unfold maxPhi; intro hc; linarith)]
      unfold rotatePhi
      exact clampPhi_of_le (by unfold minPhi; norm_num)
    have e2 : onMouseMoveRotate minPhi 1000 = minPhi := by
      unfold onMouseMoveRotate
      rw [if_pos (le_refl minPhi), if_neg (show ¬((1000:ℝ) < 0) by norm_num)]
    show onMouseMoveRotate (onMouseMoveRotate 2 1000) 1000 = minPhi
    rw [e1, e2]
  · intro h
    unfold minPhi maxPhi at h
    linarith

/-- C1 (amended): starting inside the clamped range [minPhi, maxPhi] =
[0.01, pi - 0.01], phi stays inside that range under every rotate input
sequence; with the pre-update phi at or below the lower bound a pointer
move is applied only when dy < 0, and at or above the upper bound only
when dy > 0; and repeated rotation with large positive dy drives phi to
the LOWER clamp value minPhi (a positive dy decreases phi) and keeps it
pinned there on further same-direction input, with no overshoot. -/
theorem c1_phi_clamp (phi : ℝ) (dys : List ℝ) (dy : ℝ)
    (h1 : minPhi ≤ phi) (h2 : phi ≤ maxPhi) :
    (minPhi ≤ rotateSequence phi dys ∧ rotateSequence phi dys ≤ maxPhi)
      ∧ (phi ≤ minPhi → 0 ≤ dy → onMouseMoveRotate phi dy = phi)
      ∧ (maxPhi ≤ phi → dy ≤ 0 → onMouseMoveRotate phi dy = phi)
      ∧ ((∀ d ∈ dys, 100 * (maxPhi - minPhi) ≤ d) → dys ≠ [] →
          rotateSequence phi dys = minPhi) := by
  refine ⟨rotateSequence_mem dys h1 h2, ?_, ?_, ?_⟩
  · intro hle hdy
    unfold onMouseMoveRotate
    rw [if_pos hle, if_neg (not_lt.mpr hdy)]
  · intro hge hdy
    have hne : ¬phi ≤ minPhi := by
      have := minPhi_lt_maxPhi
      intro hle
      linarith
    unfold onMouseMoveRotate
    rw [if_neg hne, if_pos hge, if_neg (not_lt.mpr hdy)]
  · intro hall hne
    cases dys with
    | nil => exact absurd rfl hne
    | cons d rest =>
      have hd := hall d (List.mem_cons_self d rest)
      have hstep : onMouseMoveRotate phi d = minPhi :=
        onMouseMoveRotate_big h1 h2 hd
      have hfold : rotateSequence phi (d :: rest)
          = rotateSequence (onMouseMoveRotate phi d) rest := rfl
      rw [hfold, hstep]
      exact rotateSequence_min_pinned rest fun x hx => hall x (List.mem_cons_of_mem d hx)

/-- C1 witness: phi = 2 lies inside the clamped range and two large
positive pointer moves pin it at the lower clamp value. -/
theorem c1_witness :
    (minPhi ≤ 2 ∧ (2:ℝ) ≤ maxPhi) ∧ rotateSequence 2 [1000, 1000] = minPhi := by
  have hpi := Real.pi_gt_three
  have hpi2 := Real.pi_lt_d2
  have h1 : minPhi ≤ (2:ℝ) := by unfold minPhi; norm_num
  have h2 : (2:ℝ) ≤ maxPhi := by unfold maxPhi; linarith
  refine ⟨⟨h1, h2⟩, ?_⟩
  refine (c1_phi_clamp 2 [1000, 1000] 0 h1 h2).2.2.2 ?_ (by simp)
  intro d hd
  rcases List.mem_cons.mp hd with rfl | hd2
  · unfold maxPhi minPhi
    linarith
  · rcases List.mem_cons.mp hd2 with rfl | hd3
    · unfold maxPhi minPhi
      linarith
    · exact absurd hd3 (List.not_mem_nil d)

/-! ## C10 -/

theorem sphericalToVec_norm (r phi theta : ℝ) :
    (sphericalToVec r phi theta).norm = |r| := by
  simp only [sphericalToVec, Vec3.norm]
  have h1 := Real.sin_sq_add_cos_sq theta
  have h2 := Real.sin_sq_add_cos_sq phi
  have key : (Real.sin phi * r * Real.sin theta) ^ 2 + (Real.cos phi * r) ^ 2
      + (Real.sin phi * r * Real.cos theta) ^ 2 = r ^ 2 := by
    have e1 : (Real.sin phi * r * Real.sin theta) ^ 2 + (Real.cos phi * r) ^ 2
        + (Real.sin phi * r * Real.cos theta) ^ 2
        = Real.sin phi ^ 2 * (Real.sin theta ^ 2 + Real.cos theta ^ 2) * r ^ 2
            + Real.cos phi ^ 2 * r ^ 2 := by ring
    have e2 : Real.sin phi ^ 2 * (1:ℝ) * r ^ 2 + Real.cos phi ^ 2 * r ^ 2
        = (Real.sin phi ^ 2 + Real.cos phi ^ 2) * r ^ 2 := by ring
    rw [e1, h1, e2, h2, one_mul]
  rw [key]
  exact Real.sqrt_sq_eq_abs r

theorem setFromVector3_radius (v : Vec3) : (setFromVector3 v).radius = v.norm := by
  unfold setFromVector3
  by_cases h : v.norm = 0
  · simp [h]
  · simp [h]

theorem vec_add_sub_cancel (a c : Vec3) : (a.add c).sub c = a := by
  unfold Vec3.add Vec3.sub
  ext <;> dsimp <;> ring

theorem vec_norm_nonneg (v : Vec3) : 0 ≤ v.norm := Real.sqrt_nonneg _

/-- C10: SimpleOrbitControls.rotate preserves the camera-to-pivot distance.
For every camera position, pivot, and pointer deltas, the new camera
position is exactly the point at the unchanged spherical radius and the
shifted (and phi-clamped) angles around the pivot, the distance from the
pivot is unchanged, and the camera is re-aimed at the pivot; only the two
angles change. -/
theorem c10_rotate_radius (dx dy : ℝ) (cam : CameraR) (modelCenter : Vec3) :
    (rotateCamera dx dy cam modelCenter).position
        = (sphericalToVec (setFromVector3 (cam.position.sub modelCenter)).radius
            (clampPhi ((setFromVector3 (cam.position.sub modelCenter)).phi - dy * 0.01))
            ((setFromVector3 (cam.position.sub modelCenter)).theta - dx * 0.01)).add
              modelCenter
      ∧ ((rotateCamera dx dy cam modelCenter).position.sub modelCenter).norm
          = (cam.position.sub modelCenter).norm
      ∧ (setFromVector3 (cam.position.sub modelCenter)).radius
          = (cam.position.sub modelCenter).norm
      ∧ (rotateCamera dx dy cam modelCenter).lookTarget = modelCenter := by
  refine ⟨rfl, ?_, setFromVector3_radius _, rfl⟩
  simp only [rotateCamera]
  rw [vec_add_sub_cancel, sphericalToVec_norm, setFromVector3_radius]
  exact abs_of_nonneg (vec_norm_nonneg _)

end WebIFCViewer
